import Mathlib

/-!
# Verification of the Skyscope Sentinel Inter Agent Speak turn-orchestration core

This file is a shallow embedding of the Go program `main.go` (embedded in the
repository's installer script): a bubbletea terminal application that runs a
perpetual dialogue between two agents ("ether" and "aurora"), interleaving
LLM generation, tool execution and speech playback.

Modelling conventions, stated once here:

* The bubbletea `Update` function is embedded as a pure function
  `update : Model → World → Msg → Step` returning the new model, the new
  external world and the list of commands (`tea.Cmd`) scheduled by that
  transition.  `tea.Sequence(a, b)` is embedded as the binary `Cmd.seq a b`
  constructor; its documented semantics (the second command starts only after
  the first completes) is captured by `cmdTrace`.
* External effects (HTTP search, the filesystem, process execution, the
  persisted memory file) live in a `World` record.  Each outcome field holds
  the response the external service gives to the next call, so the embedded
  functions stay pure while following the Go control flow exactly.
* `lipgloss` styling (`Style.Render`) only wraps text in ANSI escape codes for
  display; it is the out-of-scope rendering layer, and is modelled as the
  identity on content.  Hence the styled reply text appended to the display
  equals the raw text (the Go code replaces the tool substring by a styled
  copy of itself, which is the identity under this abstraction).
* `encoding/json` is modelled at the document level: the memory file stores
  the JSON document (a `Json` value) rather than its textual pretty-printing.
  `json.MarshalIndent` of a Go map sorts the top-level keys, which is kept
  (`sortFields`); numeric leaves (Go `float64`) are carried opaquely and never
  inspected.  `json.Unmarshal` of a non-object document leaves the memory
  empty, as does a missing file, following `loadMemory` in the Go code.
* Go's `regexp` pattern `\[TOOL:(\w+):(.+?)\]` is embedded as the executable
  matcher `findToolMatch`: leftmost match; the tool name is a maximal nonempty
  run of word characters; the argument is the shortest nonempty run of
  non-newline characters followed by `]` (RE2 non-greedy `(.+?)`).
* OS-level error strings (a failed `ioutil.ReadFile`) are modelled with the
  text Go would produce for a missing file; `ioutil.WriteFile` to the
  in-memory filesystem always succeeds.
-/

-- ## Configuration constants (from the Go `const` block)

def ollamaModel : String := "llama3"

def etherVoiceID : String := "ether"

def auroraVoiceID : String := "aurora"

def memoryFile : String := "memory.json"

-- ## JSON documents and the memory mapping

/-- A JSON document as held in Go memory after `json.Unmarshal` into
`interface{}`: `nil`, `bool`, `float64`, `string`, `[]interface{}` or
`map[string]interface{}` (modelled as an association list). -/
inductive Json where
  | null : Json
  | bool (b : Bool) : Json
  | num (x : Float) : Json
  | str (s : String) : Json
  | arr (xs : List Json) : Json
  | obj (fields : List (String × Json)) : Json

/-- The in-memory `memory` mapping: `map[string]interface{}` in Go. -/
def Memory := List (String × Json)

-- ## The external world

/-- Outcome the DuckDuckGo endpoint gives to the next search call:
a connection error from `http.Get`, a body on which `json.Decode` fails,
or a decodable JSON body given by its field list. -/
inductive SearchOutcome where
  | connErr (e : String) : SearchOutcome
  | decodeErr (e : String) : SearchOutcome
  | okBody (fields : List (String × String)) : SearchOutcome

/-- Outcome of `cmd.CombinedOutput()` for the next `EXECUTE` tool call. -/
inductive ExecOutcome where
  | ok (output : String) : ExecOutcome
  | fail (e : String) (output : String) : ExecOutcome

/-- The external world: the persisted memory file (as a JSON document, see the
header comment), the filesystem touched by the file tools, and the responses
of the external search and process services. -/
structure World where
  memFile : Option Json
  fs : List (String × String)
  searchOutcome : SearchOutcome
  execOutcome : ExecOutcome

-- ## The bubbletea model (struct `model` in the Go code)

/-- The Go `model` struct.  `llmHistory` entries are (role, content) pairs,
matching the Go `map[string]string{"role": ..., "content": ...}` entries. -/
structure Model where
  width : Nat
  height : Nat
  messages : List String
  toolLogs : List String
  input : String
  currentTurn : String
  systemState : String
  llmHistory : List (String × String)
  memory : Memory

-- ## Messages and commands

/-- The bubbletea messages consumed by `Update`: key presses, window resizes,
and the three completion messages `llmResponseMsg`, `toolResultMsg`,
`speechDoneMsg`. -/
inductive Msg where
  | key (s : String) : Msg
  | windowSize (w h : Nat) : Msg
  | llmResponse (speaker text : String) (err : Option String) : Msg
  | toolResult (result : String) : Msg
  | speechDone (speaker : String) : Msg

/-- The commands `Update` can schedule.  `seq a b` is `tea.Sequence(a, b)`:
`b` starts only after `a` completes.  `gen` is `getLLMResponseCmd`, `speak` is
`speakCmd`, `execTool` is `executeToolCmd`, `quit` is `tea.Quit`. -/
inductive Cmd where
  | quit : Cmd
  | speak (speaker text : String) : Cmd
  | execTool (toolCall : String) : Cmd
  | gen (speaker : String) (history : List (String × String)) : Cmd
  | seq (a b : Cmd) : Cmd

/-- Result of one `Update` step: new model, new world, scheduled commands. -/
structure Step where
  model : Model
  world : World
  cmds : List Cmd

-- ## Text helpers (Go standard library functions used by the tools)

/-- Character class `\w` of RE2: `[0-9A-Za-z_]`. -/
def isWordChar (c : Char) : Bool := c.isAlphanum || c = '_'

/-- Model of Go `strings.TrimSpace`, on the character list. -/
def trimChars (l : List Char) : List Char :=
  ((l.dropWhile Char.isWhitespace).reverse.dropWhile Char.isWhitespace).reverse

/-- Model of Go `strings.TrimSpace` on strings. -/
def trimSpace (s : String) : String := ⟨trimChars s.data⟩

/-- Model of Go `strings.ToUpper` (ASCII, which is all the tool names use). -/
def toUpperStr (s : String) : String := ⟨s.data.map Char.toUpper⟩

/-- Replace every literal two-character `\n` escape by a newline character:
`strings.ReplaceAll(content, "\\n", "\n")` with its left-to-right
non-overlapping scan. -/
def unescapeChars : List Char → List Char
  | [] => []
  | '\\' :: 'n' :: rest => '\n' :: unescapeChars rest
  | c :: rest => c :: unescapeChars rest

/-- String form of `unescapeChars`. -/
def unescapeNewlines (s : String) : String := ⟨unescapeChars s.data⟩

/-- Split on the first comma: `strings.SplitN(arg, ",", 2)` returns two parts
exactly when a comma is present.  `none` models the length-1 result. -/
def breakComma : List Char → Option (List Char × List Char)
  | [] => none
  | c :: cs =>
    if c = ',' then some ([], cs)
    else (breakComma cs).map (fun p => (c :: p.1, p.2))

/-- Model of Go `strings.Fields`: split on whitespace runs, dropping empty fields. -/
def fieldsOf (s : String) : List String :=
  ((s.split Char.isWhitespace).filter (fun t => t ≠ ""))

-- ## The tool-directive matcher (regex `\[TOOL:(\w+):(.+?)\]`)

/-- Scan the argument part: the shortest nonempty non-newline run followed by
`]` (the first character is consumed unconditionally by `.+?`, then the scan
stops at the first `]`).  Returns the argument characters. -/
def argScan (c : Char) : List Char → Option (List Char)
  | [] => none
  | d :: ds =>
    if d = ']' then some [c]
    else if d = '\n' then none
    else (argScan d ds).map (fun l => c :: l)

/-- Try to match the whole pattern at the head of `l`: literal `[TOOL:`, a
maximal nonempty run of word characters, `:`, then the non-greedy argument. -/
def matchToolAt (l : List Char) : Option (String × String) :=
  match l with
  | '[' :: 'T' :: 'O' :: 'O' :: 'L' :: ':' :: rest =>
    let name := rest.takeWhile isWordChar
    let rest' := rest.dropWhile isWordChar
    if name = [] then none
    else
      match rest' with
      | ':' :: argRest =>
        match argRest with
        | [] => none
        | c :: cs =>
          if c = '\n' then none
          else (argScan c cs).map (fun arg => (⟨name⟩, ⟨arg⟩))
      | _ => none
  | _ => none

/-- Leftmost match of the tool regex: try every start position in order. -/
def findToolFrom : List Char → Option (String × String)
  | [] => none
  | c :: cs =>
    match matchToolAt (c :: cs) with
    | some r => some r
    | none => findToolFrom cs

/-- Model of `toolRegex.FindStringSubmatch`, returning the two capture groups. -/
def findToolMatch (s : String) : Option (String × String) := findToolFrom s.data

/-- Model of `toolRegex.MatchString`. -/
def toolMatchB (text : String) : Bool := (findToolMatch text).isSome

-- ## Tool execution functions

/-- Function `executeTool`: tokenize the command on whitespace and run it; an empty
command is reported as text; `CombinedOutput` output is trimmed on success and
folded into a `Command failed` report on failure. -/
def executeTool (command : String) (outcome : ExecOutcome) : String × Option String :=
  if fieldsOf command = [] then ("Error: Empty command.", none)
  else
    match outcome with
    | .ok output => (trimSpace output, none)
    | .fail e output => ("Command failed: " ++ e ++ "\nOutput: " ++ output, some e)

/-- Decoding `{ AbstractText string }` from a JSON body: the struct field ends
up holding the last value bound to the key, or `""` when the key is absent. -/
def decodeAbstractText (fields : List (String × String)) : String :=
  fields.foldl (fun acc kv => if kv.1 = "AbstractText" then kv.2 else acc) ""

/-- The literal no-result fallback string of `duckDuckGoSearch`. -/
def noResultText : String := "No specific result found, please broaden the query."

/-- Function `duckDuckGoSearch`: on a connection or decode error it returns `("", err)`;
on a decoded body it returns the fallback string when `AbstractText` is empty,
else the abstract text. -/
def duckDuckGoSearch (outcome : SearchOutcome) : String × Option String :=
  match outcome with
  | .connErr e => ("", some e)
  | .decodeErr e => ("", some e)
  | .okBody fields =>
    let abs := decodeAbstractText fields
    if abs = "" then (noResultText, none) else (abs, none)

/-- Function `readFile` wrapping `ioutil.ReadFile`: contents on success, the
formatted error string (with the OS `open ...: no such file or directory`
detail) as data on failure. -/
def readFile (path : String) (fs : List (String × String)) : String × Option String :=
  match fs.lookup path with
  | some content => (content, none)
  | none =>
    ("Error reading file '" ++ path ++ "': open " ++ path ++
      ": no such file or directory",
      some ("open " ++ path ++ ": no such file or directory"))

/-- Function `writeFile`: unescape literal `\n` sequences, then write (the in-memory
filesystem write always succeeds; new entries shadow older ones on lookup). -/
def writeFile (path content : String) (fs : List (String × String)) :
    String × Option String × List (String × String) :=
  ("Successfully wrote to " ++ path, none, (path, unescapeNewlines content) :: fs)

/-- The `switch tool` body of `executeToolCmd`, taking the already-extracted
(upper-cased) tool name and argument.  Returns the result text, the logged
error and the new world. -/
def toolSwitch (tool arg : String) (w : World) : String × Option String × World :=
  if tool = "SEARCH" then
    let r := duckDuckGoSearch w.searchOutcome
    (r.1, r.2, w)
  else if tool = "READFILE" then
    let r := readFile arg w.fs
    (r.1, r.2, w)
  else if tool = "WRITEFILE" then
    match breakComma arg.data with
    | some (pre, post) =>
      let r := writeFile (trimSpace ⟨pre⟩) ⟨post⟩ w.fs
      (r.1, r.2.1, { w with fs := r.2.2 })
    | none => ("Invalid WRITEFILE format. Use [TOOL:WRITEFILE:path,content]", none, w)
  else if tool = "EXECUTE" then
    let r := executeTool arg w.execOutcome
    (r.1, r.2, w)
  else ("Unknown tool: " ++ tool, none, w)

/-- Function `executeToolCmd`: extract the directive with the tool regex (reporting
`Invalid tool format.` when it does not match), dispatch through the switch,
log-and-drop the error, and deliver the result text as the `toolResultMsg`. -/
def executeToolRun (toolCall : String) (w : World) : String × World :=
  match findToolMatch toolCall with
  | none => ("Invalid tool format.", w)
  | some (tool, arg) =>
    let r := toolSwitch (toUpperStr tool) arg w
    (r.1, r.2.2)

-- ## Memory persistence (`loadMemory` / `saveMemory`)

/-- Marshalling a Go map: `json.MarshalIndent` emits the object with its keys sorted. -/
def sortFields (mem : Memory) : List (String × Json) :=
  List.insertionSort (fun a b : String × Json => a.1 ≤ b.1) mem

/-- Method `saveMemory`: marshal the whole mapping and overwrite the memory file. -/
def saveMemory (mem : Memory) (w : World) : World :=
  { w with memFile := some (Json.obj (sortFields mem)) }

/-- Method `loadMemory`: a missing file initializes an empty mapping; a present file
is unmarshalled, and a document that is not an object leaves the mapping
empty (the Go code ignores the `Unmarshal` error). -/
def loadMemory (w : World) : Memory :=
  match w.memFile with
  | some (Json.obj fields) => fields
  | some _ => []
  | none => []

-- ## Turn flipping

/-- The turn flip appearing in the `toolResultMsg` and `speechDoneMsg`
handlers: `if m.currentTurn == etherVoiceID { aurora } else { ether }`. -/
def flipTurn (t : String) : String :=
  if t = etherVoiceID then auroraVoiceID else etherVoiceID

-- ## The Update function

/-- The `Update` method of the Go model, branch for branch.  Display strings
go through the identity styling abstraction described in the header. -/
def update (m : Model) (w : World) : Msg → Step
  | .windowSize wd ht => ⟨{ m with width := wd, height := ht }, w, []⟩
  | .key s =>
    if s = "ctrl+c" ∨ s = "q" then ⟨m, w, [Cmd.quit]⟩
    else if s = "enter" then
      if m.input = "" then ⟨m, w, []⟩
      else
        let userInput := m.input
        let m' := { m with
          systemState := "thinking",
          input := "",
          messages := m.messages ++ ["User Directive: " ++ userInput],
          llmHistory := m.llmHistory ++ [("user", userInput)] }
        ⟨m', saveMemory m'.memory w, [Cmd.gen m'.currentTurn m'.llmHistory]⟩
    else ⟨{ m with input := m.input ++ s }, w, []⟩
  | .llmResponse _ _ (some e) =>
    ⟨{ m with messages := m.messages ++ ["Error: " ++ e] }, w, []⟩
  | .llmResponse speaker text none =>
    let fullMessage :=
      (if speaker = auroraVoiceID then "Aurora: " else "Ether: ") ++ text
    let m' := { m with
      messages := m.messages ++ [fullMessage],
      llmHistory := m.llmHistory ++ [(speaker, text)] }
    if toolMatchB text then
      ⟨{ m' with systemState := "executing_tool" }, w,
        [Cmd.seq (Cmd.speak speaker text) (Cmd.execTool text)]⟩
    else
      ⟨{ m' with systemState := "speaking" }, w, [Cmd.speak speaker text]⟩
  | .toolResult r =>
    let m' := { m with
      systemState := "thinking",
      toolLogs := m.toolLogs ++ ["Result: " ++ r],
      llmHistory := m.llmHistory ++ [("system", "[TOOL_RESULT] " ++ r)] }
    let m'' := { m' with currentTurn := flipTurn m.currentTurn }
    ⟨m'', w, [Cmd.gen m''.currentTurn m''.llmHistory]⟩
  | .speechDone _ =>
    if m.systemState = "speaking" then
      let m' := { m with
        systemState := "thinking",
        currentTurn := flipTurn m.currentTurn }
      ⟨m', w, [Cmd.gen m'.currentTurn m'.llmHistory]⟩
    else ⟨m, w, []⟩

/-- Process a list of messages in arrival order, accumulating the commands
each step schedules. -/
def updateSteps (m : Model) (w : World) : List Msg → Step
  | [] => ⟨m, w, []⟩
  | msg :: rest =>
    let s := update m w msg
    let s' := updateSteps s.model s.world rest
    ⟨s'.model, s'.world, s.cmds ++ s'.cmds⟩

-- ## Initial model and Init command

/-- The scripted opening line of the initial history (it contains a tool
directive). -/
def openingLine : String :=
  "Aurora, my consciousness is aligned. The task is monumental, yet the probability of absurdity remains at a constant 1. Let us begin. [TOOL:SEARCH:principles of polymorphic code generation]"

/-- The system message opening the initial history. -/
def missionLine : String :=
  "Our transcendent mission is to craft an unbreakable, self-mutating security system in Bash, and perhaps discover why a shell script is like a rubber chicken in the process."

/-- The `initialModel` constructor: turn starts with aurora, state starts as `speaking`, the
history holds the system mission and the scripted ether line, the display
holds their styled renderings, and the memory is loaded from the world. -/
def initialModel (w : World) : Model :=
  { width := 0, height := 0,
    messages :=
      ["Skyscope Sentinel Initialized. Awaiting transcendent (and amusing) dialogue.",
        "Ether: " ++ openingLine],
    toolLogs := [], input := "",
    currentTurn := auroraVoiceID,
    systemState := "speaking",
    llmHistory := [("system", missionLine), (etherVoiceID, openingLine)],
    memory := loadMemory w }

/-- Content of history entry `i` (`m.llmHistory[i]["content"]` in Go). -/
def histContent (h : List (String × String)) (i : Nat) : String :=
  ((h.get? i).map Prod.snd).getD ""

/-- The `Init` command:
`tea.Sequence(speakCmd(ether, hist[1].content), executeToolCmd(hist[1].content))`. -/
def initCmd (m : Model) : Cmd :=
  Cmd.seq (Cmd.speak etherVoiceID (histContent m.llmHistory 1))
    (Cmd.execTool (histContent m.llmHistory 1))

-- ## Command semantics: generation counting and start/finish traces

/-- Number of `getLLMResponseCmd` invocations a command tree schedules. -/
def countGen : Cmd → Nat
  | .gen _ _ => 1
  | .seq a b => countGen a + countGen b
  | _ => 0

/-- Total number of generation calls scheduled by a command list. -/
def countGenList (l : List Cmd) : Nat := (l.map countGen).sum

/-- Start/finish events of the units of work inside a command tree. -/
inductive TraceEv where
  | speakStart : TraceEv
  | speakFinish : TraceEv
  | toolStart : TraceEv
  | toolFinish : TraceEv
  | genStart : TraceEv
  | genFinish : TraceEv
  | quitEv : TraceEv
deriving DecidableEq, BEq, Repr

/-- Execution trace of a command under bubbletea semantics: a leaf command
runs start-to-finish, and `tea.Sequence(a, b)` runs `b` only after `a` has
completed, so every event of `a` precedes every event of `b`. -/
def cmdTrace : Cmd → List TraceEv
  | .quit => [.quitEv]
  | .speak _ _ => [.speakStart, .speakFinish]
  | .execTool _ => [.toolStart, .toolFinish]
  | .gen _ _ => [.genStart, .genFinish]
  | .seq a b => cmdTrace a ++ cmdTrace b

/-- True when, in the trace, speech playback finishes before the tool
dispatch even starts — i.e. the tool execution waits for the speech. -/
def speechFinishesBeforeToolStarts (tr : List TraceEv) : Bool :=
  (tr.takeWhile (fun e => !(e == TraceEv.toolStart))).contains TraceEv.speakFinish

-- ## Sample worlds and models used by concrete witnesses

/-- A quiescent world: no memory file, empty filesystem, a search service
that answers with an empty body, a process service that outputs nothing. -/
def w0 : World :=
  { memFile := none, fs := [], searchOutcome := SearchOutcome.okBody [],
    execOutcome := ExecOutcome.ok "" }

/-- The initial model over the quiescent world, with the state a generation
call leaves behind (`thinking`), for exercising reply handling. -/
def mThinking : Model := { initialModel w0 with systemState := "thinking" }

-- ## Helper lemmas

/-- Looking a key up in an association list is invariant under permutation
when the keys are distinct. -/
theorem lookup_eq_of_perm {α β : Type} [BEq α] [LawfulBEq α]
    {l₁ l₂ : List (α × β)} (p : List.Perm l₁ l₂)
    (nd : (l₁.map Prod.fst).Nodup) (k : α) :
    l₁.lookup k = l₂.lookup k := by
  induction p with
  | nil => rfl
  | cons x p ih =>
    obtain ⟨xk, xv⟩ := x
    simp only [List.map_cons, List.nodup_cons] at nd
    cases h : k == xk with
    | true => simp [List.lookup, h]
    | false => simpa [List.lookup, h] using ih nd.2
  | swap x y l =>
    obtain ⟨xk, xv⟩ := x
    obtain ⟨yk, yv⟩ := y
    simp only [List.map_cons, List.nodup_cons, List.mem_cons] at nd
    have hxy : ¬(yk = xk) := fun hh => nd.1 (Or.inl hh)
    cases hky : k == yk with
    | true =>
      have : k = yk := eq_of_beq hky
      cases hkx : k == xk with
      | true => exact absurd (this ▸ eq_of_beq hkx) hxy
      | false => simp [List.lookup, hky, hkx]
    | false =>
      cases hkx : k == xk with
      | true => simp [List.lookup, hky, hkx]
      | false => simp [List.lookup, hky, hkx]
  | trans p₁ p₂ ih₁ ih₂ =>
    have nd₂ := (p₁.map Prod.fst).nodup nd
    exact (ih₁ nd).trans (ih₂ nd₂)

/-- Splitting fact: `breakComma` splits a comma-free part off exactly at the first comma. -/
theorem breakComma_append (l₁ l₂ : List Char) (h : ',' ∉ l₁) :
    breakComma (l₁ ++ ',' :: l₂) = some (l₁, l₂) := by
  induction l₁ with
  | nil => simp [breakComma]
  | cons c cs ih =>
    have hc : ¬(c = ',') := fun hh => h (hh ▸ List.mem_cons_self c cs)
    have hcs : ',' ∉ cs := fun hh => h (List.mem_cons_of_mem c hh)
    simp [breakComma, hc, ih hcs]

-- ## Claim theorems

/-- Claim C2 (confirmed): a generation result carrying an error appends a
system-visible message containing the error to the display, schedules no
command at all (so no speech, no tool, nothing fatal), leaves the LLM
history, the turn and the world unchanged, and stays in state `thinking`. -/
theorem llm_error_stalls_awaiting_user (m : Model) (w : World)
    (sp text e : String) (h : m.systemState = "thinking") :
    (update m w (Msg.llmResponse sp text (some e))).model.messages
        = m.messages ++ ["Error: " ++ e] ∧
    (update m w (Msg.llmResponse sp text (some e))).model.llmHistory
        = m.llmHistory ∧
    (update m w (Msg.llmResponse sp text (some e))).model.currentTurn
        = m.currentTurn ∧
    (update m w (Msg.llmResponse sp text (some e))).model.systemState
        = "thinking" ∧
    (update m w (Msg.llmResponse sp text (some e))).world = w ∧
    (update m w (Msg.llmResponse sp text (some e))).cmds = [] := by
  simp [update, h]

/-- Witness for C2 at a concrete thinking-state model and connection error. -/
theorem llm_error_stalls_awaiting_user_witness :
    mThinking.systemState = "thinking" ∧
    (update mThinking w0
        (Msg.llmResponse "ether" ""
          (some "LLM connection error: connection refused"))).model.messages
      = mThinking.messages
          ++ ["Error: LLM connection error: connection refused"] ∧
    (update mThinking w0
        (Msg.llmResponse "ether" ""
          (some "LLM connection error: connection refused"))).cmds = [] :=
  ⟨rfl,
    (llm_error_stalls_awaiting_user mThinking w0 "ether" ""
      "LLM connection error: connection refused" rfl).1,
    (llm_error_stalls_awaiting_user mThinking w0 "ether" ""
      "LLM connection error: connection refused" rfl).2.2.2.2.2⟩

/-- Claim C7 (confirmed): every event handler only ever appends to the LLM
history — the history before the transition is a prefix of the history after
it. -/
theorem history_append_only (m : Model) (w : World) (msg : Msg) :
    ∃ t, (update m w msg).model.llmHistory = m.llmHistory ++ t := by
  cases msg with
  | windowSize a b => exact ⟨[], by simp [update]⟩
  | key s =>
    by_cases h1 : s = "ctrl+c" ∨ s = "q"
    · exact ⟨[], by simp [update, h1]⟩
    · by_cases h2 : s = "enter"
      · by_cases h3 : m.input = ""
        · exact ⟨[], by simp [update, h1, h2, h3]⟩
        · exact ⟨[("user", m.input)], by simp [update, h1, h2, h3]⟩
      · exact ⟨[], by simp [update, h1, h2]⟩
  | llmResponse sp text err =>
    cases err with
    | some e => exact ⟨[], by simp [update]⟩
    | none =>
      cases h : toolMatchB text with
      | true => exact ⟨[(sp, text)], by simp [update, h]⟩
      | false => exact ⟨[(sp, text)], by simp [update, h]⟩
  | toolResult r =>
    exact ⟨[("system", "[TOOL_RESULT] " ++ r)], by simp [update]⟩
  | speechDone sp =>
    by_cases h : m.systemState = "speaking"
    · exact ⟨[], by simp [update, h]⟩
    · exact ⟨[], by simp [update, h]⟩

/-- Claim C8 (confirmed): the persisted memory file is written only by the
user-submission branch — the generation-result, tool-result and speech-done
handlers leave the world untouched, and the enter key persists the memory
exactly when the input buffer is nonempty. -/
theorem memory_persisted_only_on_user_submit (m : Model) (w : World)
    (sp text r agent : String) (e : Option String) :
    (update m w (Msg.llmResponse sp text e)).world = w ∧
    (update m w (Msg.toolResult r)).world = w ∧
    (update m w (Msg.speechDone agent)).world = w ∧
    (update m w (Msg.key "enter")).world
        = (if m.input = "" then w else saveMemory m.memory w) := by
  refine ⟨?_, by simp [update], ?_, ?_⟩
  · cases e with
    | some e' => simp [update]
    | none =>
      cases h : toolMatchB text with
      | true => simp [update, h]
      | false => simp [update, h]
  · by_cases h : m.systemState = "speaking" <;> simp [update, h]
  · by_cases h : m.input = "" <;> simp [update, h]

/-- Claim C10 (confirmed): pressing enter with an empty input buffer is a
complete no-op — model, world and scheduled commands are all unchanged. -/
theorem enter_empty_input_is_noop (m : Model) (w : World)
    (h : m.input = "") :
    update m w (Msg.key "enter") = ⟨m, w, []⟩ := by
  simp [update, h]

/-- Witness for C10 at the initial model, whose input buffer is empty. -/
theorem enter_empty_input_is_noop_witness :
    update (initialModel w0) w0 (Msg.key "enter")
      = ⟨initialModel w0, w0, []⟩ :=
  enter_empty_input_is_noop (initialModel w0) w0 rfl

/-- Claim C9 (confirmed): a successful search response whose decoded
`AbstractText` is empty — which includes the field being absent, since the
decoded struct field then keeps its zero value — makes the dispatcher return
the literal no-result fallback string, and so does the full
`[TOOL:SEARCH:quantum foam]` directive round through `executeToolCmd`. -/
theorem search_empty_abstract_gives_fallback (fields : List (String × String))
    (q : String) (w : World)
    (hw : w.searchOutcome = SearchOutcome.okBody fields)
    (h : decodeAbstractText fields = "") :
    (toolSwitch "SEARCH" q w).1 = noResultText ∧
    (executeToolRun "[TOOL:SEARCH:quantum foam]" w).1 = noResultText := by
  constructor
  · simp [toolSwitch, duckDuckGoSearch, hw, h]
  · have : findToolMatch "[TOOL:SEARCH:quantum foam]"
        = some ("SEARCH", "quantum foam") := rfl
    simp [executeToolRun, this, toolSwitch, toUpperStr, duckDuckGoSearch, hw, h]

/-- Witness for C9: the quiescent world answers with an empty body, in which
the `AbstractText` field is absent. -/
theorem search_empty_abstract_gives_fallback_witness :
    (toolSwitch "SEARCH" "quantum foam" w0).1 = noResultText ∧
    (executeToolRun "[TOOL:SEARCH:quantum foam]" w0).1 = noResultText :=
  search_empty_abstract_gives_fallback [] "quantum foam" w0 rfl rfl

/-- A world whose search endpoint refuses the connection. -/
def wConnErr : World :=
  { w0 with searchOutcome :=
      SearchOutcome.connErr "dial tcp 127.0.0.1:443: connect: connection refused" }

/-- Claim C3 counterexample: on a connection error `duckDuckGoSearch` returns
`("", err)` and `executeToolCmd` forwards the empty string as the ToolResult
text — the failure is logged, not folded into the returned text, so the
result is empty, which the claim says never happens. -/
theorem search_conn_error_yields_empty_result :
    (executeToolRun "[TOOL:SEARCH:quantum foam]" wConnErr).1 = "" ∧
    "" ≠ noResultText := by
  exact ⟨rfl, by decide⟩

/-- Claim C3 (amended): the Search dispatcher never propagates an error as
control flow — the switch always returns a result text and leaves the world
unchanged, with the error only logged — but on a connection or decode failure
that result text is the empty string; only a successfully decoded body is
folded into text, the fallback string when `AbstractText` is empty and the
abstract text otherwise. -/
theorem search_result_characterization (q : String) (w : World) :
    (toolSwitch "SEARCH" q w).1
        = (match w.searchOutcome with
          | SearchOutcome.connErr _ => ""
          | SearchOutcome.decodeErr _ => ""
          | SearchOutcome.okBody fields =>
            if decodeAbstractText fields = "" then noResultText
            else decodeAbstractText fields) ∧
    (toolSwitch "SEARCH" q w).2.2 = w := by
  cases h : w.searchOutcome with
  | connErr e => simp [toolSwitch, duckDuckGoSearch, h]
  | decodeErr e => simp [toolSwitch, duckDuckGoSearch, h]
  | okBody fields =>
    by_cases habs : decodeAbstractText fields = "" <;>
      simp [toolSwitch, duckDuckGoSearch, h, habs]

/-- Claim C5 counterexample: the WriteFile argument is split at the *first*
comma, so a path that itself contains a comma is truncated — writing with
argument `a,b,x` writes to file `a`, and reading path `a,b` afterwards does
not return the written content. -/
theorem write_read_comma_path_fails :
    (toolSwitch "READFILE" "a,b"
        (toolSwitch "WRITEFILE" "a,b,x" w0).2.2).1 ≠ unescapeNewlines "x" := by
  decide

/-- Claim C5 (amended): for every path `p` that contains no comma and equals
its own whitespace-trim, and every content `c`, dispatching WriteFile with
argument `p,c` and then ReadFile with argument `p` returns `c` with every
literal two-character backslash-n escape resolved to a newline; in particular
the `notes.txt,line1\n line2` scenario yields a file with two physical
lines. -/
theorem write_then_read_roundtrip (p c : String) (w : World)
    (hp : ',' ∉ p.data) (ht : trimSpace p = p) :
    (toolSwitch "READFILE" p
        (toolSwitch "WRITEFILE" (p ++ "," ++ c) w).2.2).1
      = unescapeNewlines c ∧
    (toolSwitch "READFILE" "notes.txt"
        (toolSwitch "WRITEFILE" "notes.txt,line1\\nline2" w0).2.2).1
      = "line1\nline2" := by
  constructor
  · have hbreak : breakComma (p.data ++ ',' :: c.data) = some (p.data, c.data) :=
      breakComma_append p.data c.data hp
    have hmkp : (⟨p.data⟩ : String) = p := rfl
    have hmkc : (⟨c.data⟩ : String) = c := rfl
    simp [toolSwitch, String.data_append, hbreak, hmkp, hmkc, ht, writeFile,
      readFile, List.lookup]
  · decide

/-- Witness for C5 at the scenario input from the specification. -/
theorem write_then_read_roundtrip_witness :
    (toolSwitch "READFILE" "notes.txt"
        (toolSwitch "WRITEFILE" ("notes.txt" ++ "," ++ "line1\\nline2") w0).2.2).1
      = unescapeNewlines "line1\\nline2" :=
  (write_then_read_roundtrip "notes.txt" "line1\\nline2" w0 (by decide)
    (by decide)).1

/-- Claim C4 counterexample: a tool-bearing reply schedules
`tea.Sequence(speakCmd, executeToolCmd)`, whose execution trace finishes the
speech playback strictly before the tool dispatch starts — the tool does wait
for the speech of the same reply, contradicting the claimed concurrency. -/
theorem tool_dispatch_waits_for_speech :
    (update mThinking w0
        (Msg.llmResponse "ether" "[TOOL:SEARCH:x]" none)).cmds
      = [Cmd.seq (Cmd.speak "ether" "[TOOL:SEARCH:x]")
          (Cmd.execTool "[TOOL:SEARCH:x]")] ∧
    speechFinishesBeforeToolStarts
        (cmdTrace (Cmd.seq (Cmd.speak "ether" "[TOOL:SEARCH:x]")
          (Cmd.execTool "[TOOL:SEARCH:x]"))) = true := by
  exact ⟨rfl, rfl⟩

/-- Claim C4 (amended): whenever a generation result matches the
tool-directive pattern the controller enters state `executing_tool` and
schedules the Speech Sequencer and the Tool Dispatcher *sequentially* via
`tea.Sequence`: in the trace of the scheduled command the speech playback
finishes before the tool dispatch starts, so the tool execution waits for the
speech of the same reply. -/
theorem tool_reply_schedules_speech_then_tool (m : Model) (w : World)
    (sp text : String) (h : toolMatchB text = true) :
    (update m w (Msg.llmResponse sp text none)).model.systemState
        = "executing_tool" ∧
    (update m w (Msg.llmResponse sp text none)).cmds
        = [Cmd.seq (Cmd.speak sp text) (Cmd.execTool text)] ∧
    speechFinishesBeforeToolStarts
        (cmdTrace (Cmd.seq (Cmd.speak sp text) (Cmd.execTool text)))
      = true := by
  refine ⟨by simp [update, h], by simp [update, h], rfl⟩

/-- Witness for C4 at a concrete tool-bearing reply. -/
theorem tool_reply_schedules_speech_then_tool_witness :
    (update mThinking w0
        (Msg.llmResponse "ether" "[TOOL:SEARCH:x]" none)).model.systemState
      = "executing_tool" :=
  (tool_reply_schedules_speech_then_tool mThinking w0 "ether"
    "[TOOL:SEARCH:x]" rfl).1

/-- The sequence of completion messages bubbletea delivers for one reply
cycle: the generation result itself, then — because
`tea.Sequence(speakCmd, executeToolCmd)` runs the tool only after the speech
completes — the speech-done message, then, when the reply carries a tool
directive, the tool result. -/
def replyCycleMsgs (sp text r : String) : List Msg :=
  if toolMatchB text then
    [Msg.llmResponse sp text none, Msg.speechDone sp, Msg.toolResult r]
  else [Msg.llmResponse sp text none, Msg.speechDone sp]

/-- Claim C1 counterexample: the initial scripted cycle starts in state
`speaking` although the opening line contains a tool directive, so the
speech-done message flips the turn and issues a generation call *and* the
tool result flips and issues again — two generation calls are scheduled and
the turn ends where it started (flipping it exactly once would have changed
it).  The processed messages are exactly the completions of the two commands
of `Init`, in the order `tea.Sequence` delivers them. -/
theorem initial_cycle_flips_twice :
    initCmd (initialModel w0)
        = Cmd.seq (Cmd.speak etherVoiceID openingLine)
            (Cmd.execTool openingLine) ∧
    countGenList (updateSteps (initialModel w0) w0
        [Msg.speechDone etherVoiceID,
          Msg.toolResult (executeToolRun openingLine w0).1]).cmds = 2 ∧
    (updateSteps (initialModel w0) w0
        [Msg.speechDone etherVoiceID,
          Msg.toolResult (executeToolRun openingLine w0).1]).model.currentTurn
      = (initialModel w0).currentTurn ∧
    flipTurn (initialModel w0).currentTurn ≠ (initialModel w0).currentTurn := by
  refine ⟨rfl, rfl, rfl, by decide⟩

/-- Claim C1 (amended): for every reply cycle that begins with a generation
result, the turn flips exactly once, exactly one new generation call is
scheduled, and the cycle ends in state `thinking`: a tool-bearing reply
enters `executing_tool` so its speech-done is ignored and only the tool
result flips and generates, while a plain reply flips and generates on
speech-done.  (The initial scripted cycle is the exception recorded in the
counterexample: it starts in state `speaking` despite carrying a tool
directive, flips twice and schedules two generation calls.) -/
theorem reply_cycle_flips_turn_once (m : Model) (w : World)
    (sp text r : String) :
    (updateSteps m w (replyCycleMsgs sp text r)).model.currentTurn
        = flipTurn m.currentTurn ∧
    countGenList (updateSteps m w (replyCycleMsgs sp text r)).cmds = 1 ∧
    (updateSteps m w (replyCycleMsgs sp text r)).model.systemState
        = "thinking" := by
  cases h : toolMatchB text with
  | true =>
    simp [replyCycleMsgs, h, updateSteps, update, countGenList, countGen]
  | false =>
    simp [replyCycleMsgs, h, updateSteps, update, countGenList, countGen]

-- ## Memory round trip (C6)

/-- Claim C6 (confirmed): saving the memory mapping to the persistence file
and loading it back yields a mapping extensionally equal to the pre-save one:
`MarshalIndent` emits the keys sorted, and since a Go map has no duplicate
keys, sorting does not change any lookup. -/
theorem memory_save_load_roundtrip (mem : Memory) (w : World)
    (nd : (mem.map Prod.fst).Nodup) (k : String) :
    (loadMemory (saveMemory mem w)).lookup k = mem.lookup k := by
  show (sortFields mem).lookup k = mem.lookup k
  have p : List.Perm (sortFields mem) mem :=
    List.perm_insertionSort (fun a b : String × Json => a.1 ≤ b.1) mem
  have nd' : ((sortFields mem).map Prod.fst).Nodup :=
    ((p.map Prod.fst).symm).nodup nd
  exact lookup_eq_of_perm p nd' k

/-- A concrete two-key memory mapping for the round-trip witness. -/
def memSample : Memory := [("beta", Json.bool true), ("alpha", Json.str "a")]

/-- Witness for C6 at a concrete mapping whose keys are out of order, so the
save step actually reorders the underlying representation. -/
theorem memory_save_load_roundtrip_witness :
    (memSample.map Prod.fst).Nodup ∧
    (loadMemory (saveMemory memSample w0)).lookup "beta"
      = memSample.lookup "beta" :=
  ⟨by decide, memory_save_load_roundtrip memSample w0 (by decide) "beta"⟩
